import Mathlib

/-!
Shallow embedding of the LawVista backend's RAG streaming pipeline
(`utils/service.js`, `controllers/chat.js`) and proofs of its spec's
testable properties.

Scores returned by the similarity-search service are modelled as
rationals; JS `Map`-based deduplication is modelled by an association
list with JS `Map.set` semantics (key keeps its first-insertion
position, value is overwritten by later insertions).
-/

namespace LawVista

/-- Metadata of one retrieved candidate document, as read by
`streamLegalAssistantResponse` from `doc.metadata` together with the
similarity score. `none` models a JS `undefined`/missing field. -/
structure RetrievedDoc where
  case_title : Option String
  source_url : Option String
  r2_url : Option String
  score : ℚ
  deriving DecidableEq, Repr

/-- A frontend-facing source entry, as built in
`streamLegalAssistantResponse` (case_title, source_url, score). -/
structure SourceEntry where
  case_title : String
  source_url : String
  score : ℚ
  deriving DecidableEq, Repr

/-- A rational given directly in lowest terms, so that comparisons
reduce in the kernel (`Rat.div` normalisation does not). -/
def ratC (num : Int) (den : Nat) (den_nz : den ≠ 0) (red : num.natAbs.Coprime den) : ℚ :=
  ⟨num, den, den_nz, red⟩

/-- The relevance bar of the streaming pipeline: `0.6` (= 3/5). -/
def relevanceBar : ℚ := ratC 3 5 (by norm_num) (by norm_num)

/-- `0.35` (= 7/20), the lower cut of the summarize recommendation filter. -/
def summarizeLowCut : ℚ := ratC 7 20 (by norm_num) (by norm_num)

/-- `0.5` (= 1/2), the upper cut of the summarize recommendation filter. -/
def summarizeHighCut : ℚ := ratC 1 2 (by norm_num) (by norm_num)

/-- The strict filter of STEP C in `streamLegalAssistantResponse`:
`results.filter(([doc, score]) => score >= 0.6)`. -/
def streamKeep (score : ℚ) : Bool := decide (relevanceBar ≤ score)

/-- The recommendation filter in `summarizeLegalDocument`:
`.filter(([_, score]) => score < 0.35 || score >= 0.5)`. -/
def summarizeKeep (score : ℚ) : Bool :=
  decide (score < summarizeLowCut) || decide (summarizeHighCut ≤ score)

/-- `validDocs` of `streamLegalAssistantResponse`. -/
def filterValid (results : List RetrievedDoc) : List RetrievedDoc :=
  results.filter (fun d => streamKeep d.score)

/-- One element of `uniqueSources` before deduplication:
`{ case_title: m.case_title || "Unknown Case",
   source_url: m.r2_url || m.source_url || "#", score }`. -/
def mkSource (d : RetrievedDoc) : SourceEntry :=
  { case_title := d.case_title.getD "Unknown Case"
    source_url := ((d.r2_url).orElse (fun _ => d.source_url)).getD "#"
    score := d.score }

/-- `map.set(k, v)` on a JS `Map` represented as an association list:
if the key is present its value is overwritten in place, otherwise the
pair is appended. -/
def jsMapSet (m : List (String × SourceEntry)) (k : String) (v : SourceEntry) :
    List (String × SourceEntry) :=
  if m.any (fun p => p.1 = k) then
    m.map (fun p => if p.1 = k then (k, v) else p)
  else m ++ [(k, v)]

/-- `[...new Map(l.map(item => [item.case_title, item])).values()]`. -/
def dedupByTitle (l : List SourceEntry) : List SourceEntry :=
  (l.foldl (fun m item => jsMapSet m item.case_title item) []).map (·.2)

/-- Helper for `firstSeenDedupByTitle`: keep an entry only when its
title has not been seen yet. -/
def firstSeenAux : List String → List SourceEntry → List SourceEntry
  | _, [] => []
  | seen, x :: xs =>
      if x.case_title ∈ seen then firstSeenAux seen xs
      else x :: firstSeenAux (x.case_title :: seen) xs

/-- First-seen-wins deduplication by title. Modelled from the spec:
"deduplication by title, first-seen-wins" — the spec's stated policy,
kept separate from `dedupByTitle`, which embeds the code's JS `Map`
construction, so the two can be compared. -/
def firstSeenDedupByTitle (l : List SourceEntry) : List SourceEntry :=
  firstSeenAux [] l

/-- The `uniqueSources` value computed by `streamLegalAssistantResponse`
for a given retrieval result list (empty when no candidate passes the
strict filter). -/
def assistantSources (results : List RetrievedDoc) : List SourceEntry :=
  let validDocs := filterValid results
  if validDocs.length > 0 then dedupByTitle (validDocs.map mkSource) else []

/-! ## The framed event protocol and `streamLegalAssistantResponse` -/

/-- One SSE event written with `res.write("event: <name>\ndata: <json>\n\n")`. -/
inductive Event where
  | sources (payload : List SourceEntry)
  | chunk (text : String)
  | ended
  | errorEv (msg : String)
  deriving DecidableEq, Repr

/-- The fixed greeting set of STEP A. -/
def greetings : List String :=
  ["hi", "hello", "hey", "greetings", "good morning", "good evening",
   "thanks", "thank you"]

/-- ASCII lower-casing of one character (JS `toLowerCase` restricted to
ASCII, which covers the greeting set). -/
def toLowerChar (c : Char) : Char :=
  if 'A' ≤ c && c ≤ 'Z' then Char.ofNat (c.toNat + 32) else c

/-- ASCII whitespace, for the `trim` model. -/
def isSpaceChar (c : Char) : Bool :=
  c == ' ' || c == '\t' || c == '\n' || c == '\r'

/-- JS `trim`: drop whitespace from both ends. -/
def jsTrim (l : List Char) : List Char :=
  ((l.dropWhile isSpaceChar).reverse.dropWhile isSpaceChar).reverse

/-- `userInput.toLowerCase().trim().replace(/[?!.]/g, "")`. -/
def cleanInputOf (userInput : String) : String :=
  String.mk ((jsTrim (userInput.toList.map toLowerChar)).filter
    (fun c => !(c == '?' || c == '!' || c == '.')))

/-- The greeting short-circuit condition:
`greetings.includes(cleanInput) || cleanInput.length < 3`. -/
def isGreetingInput (userInput : String) : Bool :=
  greetings.contains (cleanInputOf userInput)
    || decide ((cleanInputOf userInput).length < 3)

/-- The canned greeting sentence streamed as the sole `chunk` event on
the greeting short-circuit. -/
def cannedGreeting : String :=
  "Hello! I am your legal assistant. How can I help you with Indian Commercial Law today?"

/-- What one call to `streamLegalAssistantResponse` produces: the SSE
events written to `res`, the returned `{answer, sources}`, and how many
times `vectorStore.similaritySearchWithScore` was invoked. -/
structure StreamOutcome where
  events : List Event
  answer : String
  sources : List SourceEntry
  searchCalls : Nat
  deriving DecidableEq, Repr

/-- Success path of `streamLegalAssistantResponse`, with the similarity
search results and the provider token stream supplied as oracles (both
are external I/O). -/
def streamLegalAssistantResponse (userInput : String)
    (searchResults : List RetrievedDoc) (tokens : List String) : StreamOutcome :=
  if isGreetingInput userInput then
    { events := [.sources [], .chunk cannedGreeting, .ended]
      answer := "Greeting", sources := [], searchCalls := 0 }
  else
    let u := assistantSources searchResults
    { events := .sources u :: (tokens.map .chunk ++ [.ended])
      answer := String.join tokens, sources := u, searchCalls := 1 }

/-! ## `updateChat`: validation, quota, persistence and stream framing -/

/-- One `chatHistory` entry (`{user, ai: {text, sources}, timestamp}`,
timestamps not modelled). -/
structure Turn where
  user : Option String
  ai : Option (String × List SourceEntry)
  deriving DecidableEq, Repr

/-- The user turn pushed before streaming. -/
def mkUserTurn (msg : String) : Turn := ⟨some msg, none⟩

/-- The assistant turn pushed after the stream has finished. -/
def mkAiTurn (answer : String) (sources : List SourceEntry) : Turn :=
  ⟨none, some (answer, sources)⟩

/-- A `Chats` record as read by `updateChat`. -/
structure Chat where
  chatId : String
  owner : String
  chatHistory : List Turn
  deriving DecidableEq, Repr

/-- The `User` record fields `updateChat` touches. -/
structure UserRec where
  id : String
  uses : Nat
  deriving DecidableEq, Repr

/-- Observable side effects of `updateChat`, in program order. -/
inductive Action where
  | createChat
  | flushHeaders
  | saveUser (uses : Nat)
  | saveChat (history : List Turn)
  | generate
  | writeEvent (e : Event)
  | endResponse
  deriving DecidableEq, Repr

/-- The structured (non-SSE) responses `updateChat` can return, or the
two ways the SSE stream can end. -/
inductive Resp where
  | badRequest
  | unauthorized
  | quotaDenied
  | streamOk
  | streamErrored
  deriving DecidableEq, Repr

/-- Outcome of `await streamLegalAssistantResponse(...)` as seen by
`updateChat`: either the returned `{answer, sources}` plus the events it
wrote, or a thrown error after writing some events. -/
inductive GenOutcome where
  | success (answer : String) (sources : List SourceEntry) (events : List Event)
  | failure (partialEvents : List Event)
  deriving DecidableEq, Repr

/-- Result of one `updateChat` request. -/
structure UpdateOutcome where
  status : Resp
  trace : List Action
  finalUses : Nat
  finalHistory : List Turn
  deriving DecidableEq, Repr

/-- `updateChat` from `controllers/chat.js`: message check, lazy chat
creation, ownership check, quota check, header flush, usage increment,
user-turn save, generation, assistant-turn save. `found` is the
`Chats.findOne` result, `gen` the generation oracle. -/
def updateChat (userMessage : Option String) (found : Option Chat)
    (chatId : String) (reqUser : UserRec) (gen : GenOutcome) : UpdateOutcome :=
  match userMessage with
  | none =>
      { status := .badRequest, trace := [], finalUses := reqUser.uses
        finalHistory := (found.map (·.chatHistory)).getD [] }
  | some msg =>
    let createTrace : List Action := if found.isNone then [.createChat] else []
    let chat := found.getD ⟨chatId, reqUser.id, []⟩
    if reqUser.id ≠ chat.owner then
      { status := .unauthorized, trace := createTrace
        finalUses := reqUser.uses, finalHistory := chat.chatHistory }
    else if 10 ≤ reqUser.uses then
      { status := .quotaDenied, trace := createTrace
        finalUses := reqUser.uses, finalHistory := chat.chatHistory }
    else
      let hist1 := chat.chatHistory ++ [mkUserTurn msg]
      match gen with
      | .success a s evs =>
          { status := .streamOk
            trace := createTrace
              ++ [.flushHeaders, .saveUser (reqUser.uses + 1), .saveChat hist1,
                  .generate]
              ++ evs.map .writeEvent
              ++ [.saveChat (hist1 ++ [mkAiTurn a s]), .endResponse]
            finalUses := reqUser.uses + 1
            finalHistory := hist1 ++ [mkAiTurn a s] }
      | .failure pevs =>
          { status := .streamErrored
            trace := createTrace
              ++ [.flushHeaders, .saveUser (reqUser.uses + 1), .saveChat hist1,
                  .generate]
              ++ pevs.map .writeEvent
              ++ [.writeEvent (.errorEv "An error occurred."), .endResponse]
            finalUses := reqUser.uses + 1
            finalHistory := hist1 }

/-! ## Groq key rotation (`getNextGroqApiKey`, `markGroqKeyFailed`) -/

/-- The module-level rotation state: `GROQ_API_KEYS`,
`currentGroqKeyIndex` and `keyFailureCounts` (the JS `Map` as an
association list). -/
structure GroqState where
  keys : List String
  currentIndex : Nat
  failures : List (String × Nat)
  deriving DecidableEq, Repr

/-- `keyFailureCounts.get(key) || 0`. -/
def lookupFailures (m : List (String × Nat)) (k : String) : Nat :=
  ((m.find? (fun p => p.1 == k)).map (·.2)).getD 0

/-- `keyFailureCounts.set(key, failures + 1)`. -/
def bumpFailure (m : List (String × Nat)) (k : String) : List (String × Nat) :=
  if m.any (fun p => p.1 = k) then
    m.map (fun p => if p.1 = k then (k, lookupFailures m k + 1) else p)
  else m ++ [(k, 1)]

/-- `markGroqKeyFailed` (the 60-second `setTimeout` reset is wall-clock
behaviour and not modelled). -/
def markGroqKeyFailed (st : GroqState) (key : String) : GroqState :=
  { st with failures := bumpFailure st.failures key }

/-- The `for (let i = 0; ...)` scan inside `getNextGroqApiKey`, with the
list of offsets still to try. -/
def findWorkingKey (st : GroqState) : List Nat → Option (String × GroqState)
  | [] => none
  | i :: rest =>
    let index := (st.currentIndex + i) % st.keys.length
    match st.keys[index]? with
    | none => none
    | some key =>
      if lookupFailures st.failures key < 3 then
        some (key, { st with currentIndex := (index + 1) % st.keys.length })
      else findWorkingKey st rest

/-- `getNextGroqApiKey`: scan for a key with fewer than 3 recorded
failures; if none, clear all failure counts, reset the pointer and
return the first key. `none` only when the pool is empty (where the JS
returns `undefined`). -/
def getNextGroqApiKey (st : GroqState) : Option (String × GroqState) :=
  match findWorkingKey st (List.range st.keys.length) with
  | some r => some r
  | none =>
    match st.keys[0]? with
    | some k => some (k, { st with failures := [], currentIndex := 0 })
    | none => none

/-! ## `invokeLLMWithFallback` -/

/-- Outcome of one provider invocation, classified the way the catch
block classifies it: rate-limiting
(`error.message.includes('rate') || error.status === 429`) or not. -/
inductive CallResult where
  | ok (text : String)
  | err (isRateLimit : Bool) (msg : String)
  deriving DecidableEq, Repr

/-- Environment oracle: whether `OPENAI_API_KEY` is set, the outcomes of
the two possible OpenAI invocations, and the outcome of the n-th Groq
attempt. -/
structure FallbackEnv where
  openAIConfigured : Bool
  openAIFirst : CallResult
  openAIFallback : CallResult
  groq : Nat → CallResult

/-- Result of the Groq rotation loop, with the keys attempted (in
order) and the keys reported failed via `markGroqKeyFailed`. -/
inductive GroqLoopResult where
  | success (text : String) (st : GroqState) (attempted reported : List String)
  | exhausted (lastError : Option String) (st : GroqState)
      (attempted reported : List String)
  deriving DecidableEq, Repr

/-- The `for (attempt = 0; attempt < GROQ_API_KEYS.length; attempt++)`
loop: fuel counts the remaining iterations. -/
def groqLoop (env : FallbackEnv) :
    Nat → GroqState → Nat → Option String → List String → List String →
      GroqLoopResult
  | 0, st, _, lastError, attempted, reported =>
      .exhausted lastError st attempted reported
  | fuel+1, st, attempt, lastError, attempted, reported =>
    match getNextGroqApiKey st with
    | none => .exhausted lastError st attempted reported
    | some (key, st') =>
      match env.groq attempt with
      | .ok t => .success t st' (attempted ++ [key]) reported
      | .err isRate e =>
        let st'' := markGroqKeyFailed st' key
        if isRate then
          groqLoop env fuel st'' (attempt+1) (some e) (attempted ++ [key])
            (reported ++ [key])
        else .exhausted (some e) st'' (attempted ++ [key]) (reported ++ [key])

/-- Result of `invokeLLMWithFallback`: either the answer or the thrown
error (`throw lastError || new Error("All LLM providers failed")`),
plus the Groq attempt/report bookkeeping. -/
structure FallbackOutcome where
  result : Except String String
  groqAttempts : List String
  reportedFailures : List String
  finalState : GroqState
  deriving Repr

/-- The tail of `invokeLLMWithFallback` after the Groq loop: the final
OpenAI fallback (only when configured and not already preferred), then
the throw of the last observed Groq error. -/
def afterGroq (env : FallbackEnv) (preferOpenAI : Bool) :
    GroqLoopResult → FallbackOutcome
  | .success t st att rep => ⟨.ok t, att, rep, st⟩
  | .exhausted lastErr st att rep =>
    if env.openAIConfigured && !preferOpenAI then
      match env.openAIFallback with
      | .ok t => ⟨.ok t, att, rep, st⟩
      | .err _ _ => ⟨.error (lastErr.getD "All LLM providers failed"), att, rep, st⟩
    else ⟨.error (lastErr.getD "All LLM providers failed"), att, rep, st⟩

/-- `invokeLLMWithFallback(prompt, preferOpenAI)` over the oracle
environment and the current rotation state. -/
def invokeLLMWithFallback (env : FallbackEnv) (preferOpenAI : Bool)
    (st : GroqState) : FallbackOutcome :=
  if preferOpenAI && env.openAIConfigured then
    match env.openAIFirst with
    | .ok t => ⟨.ok t, [], [], st⟩
    | .err _ _ => afterGroq env preferOpenAI (groqLoop env st.keys.length st 0 none [] [])
  else afterGroq env preferOpenAI (groqLoop env st.keys.length st 0 none [] [])

/-! ## Values used in concrete counterexamples and witnesses -/

/-- 0.2 -/
def scoreFifth : ℚ := ratC 1 5 (by norm_num) (by norm_num)

/-- 0.4 -/
def scoreTwoFifths : ℚ := ratC 2 5 (by norm_num) (by norm_num)

/-- 0.6 -/
def scoreThreeFifths : ℚ := ratC 3 5 (by norm_num) (by norm_num)

/-- 0.7 -/
def scoreSevenTenths : ℚ := ratC 7 10 (by norm_num) (by norm_num)

/-- 0.8 -/
def scoreFourFifths : ℚ := ratC 4 5 (by norm_num) (by norm_num)

/-- An above-bar candidate titled "State v. A" with url-a, score 0.7. -/
def docDupA : RetrievedDoc := ⟨some "State v. A", some "url-a", none, scoreSevenTenths⟩

/-- A second above-bar candidate with the same title, url-b, score 0.8. -/
def docDupB : RetrievedDoc := ⟨some "State v. A", some "url-b", none, scoreFourFifths⟩

/-- An environment in which every Groq attempt is rate-limited and no
OpenAI key is configured. -/
def rateLimitEnv : FallbackEnv :=
  ⟨false, .err false "openai down", .err false "openai down",
   fun _ => .err true "rate limited"⟩

/-- A two-key pool whose first key is over the failure limit. -/
def cooldownState : GroqState := ⟨["k0", "k1"], 0, [("k0", 3)]⟩

/-- Invariant of the fold that builds the JS `Map` in `dedupByTitle`,
relative to the prefix of entries already processed: keys are unique,
each key is its value's title, and each value is the last processed
entry with that title. -/
def MapInv (processed : List SourceEntry) (m : List (String × SourceEntry)) : Prop :=
  (m.map (·.1)).Nodup ∧
  (∀ p ∈ m, p.1 = p.2.case_title) ∧
  (∀ p ∈ m, (processed.filter (fun x => x.case_title = p.1)).getLast? = some p.2)

/-- What the Groq rotation loop guarantees, relative to the outcome
oracle `groqFn` and the attempt bound `bound`: attempts are bounded;
on success every attempted key but the successful last one was
reported; on exhaustion every attempted key was reported, every
non-final attempt failed rate-limited, the recorded last error is the
error of the final attempt (or absent when nothing was attempted), and
stopping before the bound is only possible through a non-rate-limit
failure. -/
def LoopConcl (groqFn : Nat → CallResult) (bound : Nat) : GroqLoopResult → Prop
  | .success t _ att rep =>
      att.length ≤ bound ∧ (∃ k, att = rep ++ [k]) ∧
      groqFn (att.length - 1) = .ok t ∧
      (∀ i, i + 1 < att.length → ∃ e, groqFn i = .err true e)
  | .exhausted lastErr _ att rep =>
      att.length ≤ bound ∧ rep = att ∧
      (∀ i, i + 1 < att.length → ∃ e, groqFn i = .err true e) ∧
      ((att = [] ∧ lastErr = none) ∨
        (att ≠ [] ∧ ∃ isR e, groqFn (att.length - 1) = .err isR e ∧
          lastErr = some e)) ∧
      (att.length < bound → ∃ e, groqFn (att.length - 1) = .err false e)

/-! ## Helper lemmas -/

/-- On a greeting input the service returns the fixed three-event frame
and the `{answer: "Greeting", sources: []}` record. -/
lemma stream_greeting_eq (userInput : String) (searchResults : List RetrievedDoc)
    (tokens : List String) (h : isGreetingInput userInput = true) :
    streamLegalAssistantResponse userInput searchResults tokens =
      { events := [.sources [], .chunk cannedGreeting, .ended]
        answer := "Greeting", sources := [], searchCalls := 0 } := by
  simp [streamLegalAssistantResponse, h]

/-- On a non-greeting input the service frames sources, then the token
chunks, then the terminal event. -/
lemma stream_normal_eq (userInput : String) (searchResults : List RetrievedDoc)
    (tokens : List String) (h : isGreetingInput userInput = false) :
    streamLegalAssistantResponse userInput searchResults tokens =
      { events := .sources (assistantSources searchResults)
          :: (tokens.map .chunk ++ [.ended])
        answer := String.join tokens, sources := assistantSources searchResults
        searchCalls := 1 } := by
  simp [streamLegalAssistantResponse, h]

/-- `updateChat` under passing validation with a successful stream. -/
lemma updateChat_success_eq (msg : String) (found : Option Chat) (chatId : String)
    (reqUser : UserRec) (a : String) (s : List SourceEntry) (evs : List Event)
    (hown : reqUser.id = (found.getD ⟨chatId, reqUser.id, []⟩).owner)
    (hq : reqUser.uses < 10) :
    updateChat (some msg) found chatId reqUser (.success a s evs) =
      { status := .streamOk
        trace := (if found.isNone then [Action.createChat] else [])
          ++ [.flushHeaders, .saveUser (reqUser.uses + 1),
              .saveChat ((found.getD ⟨chatId, reqUser.id, []⟩).chatHistory
                ++ [mkUserTurn msg]), .generate]
          ++ evs.map .writeEvent
          ++ [.saveChat ((found.getD ⟨chatId, reqUser.id, []⟩).chatHistory
                ++ [mkUserTurn msg, mkAiTurn a s]), .endResponse]
        finalUses := reqUser.uses + 1
        finalHistory := (found.getD ⟨chatId, reqUser.id, []⟩).chatHistory
          ++ [mkUserTurn msg, mkAiTurn a s] } := by
  simp [updateChat, ← hown, Nat.not_le.mpr hq]

/-- `updateChat` under passing validation with a stream that throws. -/
lemma updateChat_failure_eq (msg : String) (found : Option Chat) (chatId : String)
    (reqUser : UserRec) (pevs : List Event)
    (hown : reqUser.id = (found.getD ⟨chatId, reqUser.id, []⟩).owner)
    (hq : reqUser.uses < 10) :
    updateChat (some msg) found chatId reqUser (.failure pevs) =
      { status := .streamErrored
        trace := (if found.isNone then [Action.createChat] else [])
          ++ [.flushHeaders, .saveUser (reqUser.uses + 1),
              .saveChat ((found.getD ⟨chatId, reqUser.id, []⟩).chatHistory
                ++ [mkUserTurn msg]), .generate]
          ++ pevs.map .writeEvent
          ++ [.writeEvent (.errorEv "An error occurred."), .endResponse]
        finalUses := reqUser.uses + 1
        finalHistory := (found.getD ⟨chatId, reqUser.id, []⟩).chatHistory
          ++ [mkUserTurn msg] } := by
  simp [updateChat, ← hown, Nat.not_le.mpr hq]

/-- `updateChat` when the quota check fails. -/
lemma updateChat_quota_eq (msg : String) (found : Option Chat) (chatId : String)
    (reqUser : UserRec) (gen : GenOutcome)
    (hown : reqUser.id = (found.getD ⟨chatId, reqUser.id, []⟩).owner)
    (hq : 10 ≤ reqUser.uses) :
    updateChat (some msg) found chatId reqUser gen =
      { status := .quotaDenied
        trace := if found.isNone then [Action.createChat] else []
        finalUses := reqUser.uses
        finalHistory := (found.getD ⟨chatId, reqUser.id, []⟩).chatHistory } := by
  simp [updateChat, ← hown, hq]

/-! ## Claims -/

/-- C3: for every request whose input normalizes (lowercase, trim,
strip `?` `!` `.`) into the greeting set or to fewer than 3 characters,
the pipeline emits exactly the three events
`sources []`, `chunk <canned greeting>`, `end` — one of each — and
performs zero similarity-search calls. -/
theorem greeting_short_circuit (userInput : String)
    (searchResults : List RetrievedDoc) (tokens : List String)
    (h : isGreetingInput userInput = true) :
    streamLegalAssistantResponse userInput searchResults tokens =
      { events := [.sources [], .chunk cannedGreeting, .ended]
        answer := "Greeting", sources := [], searchCalls := 0 } :=
  stream_greeting_eq userInput searchResults tokens h

/-- Witness for C3 at the concrete input `"hello"`. -/
theorem greeting_short_circuit_witness :
    isGreetingInput "hello" = true ∧
    streamLegalAssistantResponse "hello" [] [] =
      { events := [.sources [], .chunk cannedGreeting, .ended]
        answer := "Greeting", sources := [], searchCalls := 0 } :=
  ⟨by decide, greeting_short_circuit "hello" [] [] (by decide)⟩

/-- C7: every successful stream is framed as one `sources` event first,
then the chunk events — exactly the provider's generation tokens, one
chunk per token, in generation order (the canned greeting sentence being
the sole token on the greeting short-circuit) — terminated by exactly
one `end` event. -/
theorem stream_event_framing (userInput : String)
    (searchResults : List RetrievedDoc) (tokens : List String) :
    (isGreetingInput userInput = false →
      (streamLegalAssistantResponse userInput searchResults tokens).events
        = Event.sources (assistantSources searchResults)
          :: (tokens.map Event.chunk ++ [Event.ended])) ∧
    (isGreetingInput userInput = true →
      (streamLegalAssistantResponse userInput searchResults tokens).events
        = Event.sources []
          :: ([cannedGreeting].map Event.chunk ++ [Event.ended])) ∧
    ((streamLegalAssistantResponse userInput searchResults tokens).events.countP
        (fun e => decide (e = Event.ended))) = 1 := by
  refine ⟨?_, ?_, ?_⟩
  · intro h
    rw [stream_normal_eq userInput searchResults tokens h]
  · intro h
    rw [stream_greeting_eq userInput searchResults tokens h]
    rfl
  · by_cases h : isGreetingInput userInput
    · rw [stream_greeting_eq userInput searchResults tokens h]
      simp [List.countP_cons]
    · rw [stream_normal_eq userInput searchResults tokens (by simpa using h)]
      simp [List.countP_cons, List.countP_append, List.countP_map,
        Function.comp_def]

/-- Witness for C7 at a concrete non-greeting request with two
generation tokens. -/
theorem stream_event_framing_witness :
    (streamLegalAssistantResponse "What is Section 302 IPC?" [] ["t1", "t2"]).events
      = Event.sources (assistantSources [])
        :: (["t1", "t2"].map Event.chunk ++ [Event.ended]) :=
  (stream_event_framing "What is Section 302 IPC?" [] ["t1", "t2"]).1 (by decide)

/-- C9: on the greeting short-circuit the assistant turn persisted by
`updateChat` carries the literal text `"Greeting"` and an empty source
list, while the `chunk` event streamed to the client carries the canned
greeting sentence — and the two strings differ. -/
theorem greeting_persisted_marker (userInput : String)
    (searchResults : List RetrievedDoc) (tokens : List String)
    (found : Option Chat) (chatId : String) (reqUser : UserRec)
    (hg : isGreetingInput userInput = true)
    (hown : reqUser.id = (found.getD ⟨chatId, reqUser.id, []⟩).owner)
    (hq : reqUser.uses < 10) :
    (updateChat (some userInput) found chatId reqUser
        (.success (streamLegalAssistantResponse userInput searchResults tokens).answer
          (streamLegalAssistantResponse userInput searchResults tokens).sources
          (streamLegalAssistantResponse userInput searchResults tokens).events)).finalHistory.getLast?
      = some (mkAiTurn "Greeting" []) ∧
    Event.chunk cannedGreeting
      ∈ (streamLegalAssistantResponse userInput searchResults tokens).events ∧
    "Greeting" ≠ cannedGreeting := by
  rw [stream_greeting_eq userInput searchResults tokens hg]
  rw [updateChat_success_eq userInput found chatId reqUser _ _ _ hown hq]
  refine ⟨?_, by simp, by decide⟩
  simp

/-- Witness for C9 at the concrete input `"hello"`. -/
theorem greeting_persisted_marker_witness :
    (updateChat (some "hello") none "c1" ⟨"u1", 0⟩
        (.success (streamLegalAssistantResponse "hello" [] []).answer
          (streamLegalAssistantResponse "hello" [] []).sources
          (streamLegalAssistantResponse "hello" [] []).events)).finalHistory.getLast?
      = some (mkAiTurn "Greeting" []) ∧
    Event.chunk cannedGreeting ∈ (streamLegalAssistantResponse "hello" [] []).events ∧
    "Greeting" ≠ cannedGreeting :=
  greeting_persisted_marker "hello" [] [] none "c1" ⟨"u1", 0⟩ (by decide) rfl
    (by decide)

/-- C4: a user at 10 or more uses gets the structured `quotaDenied`
response with no header flush and no event written; a user at 9 uses
enters streaming (the stream either completes or errors on the open
channel) and ends the request at 10 uses. -/
theorem quota_boundary (msg : String) (found : Option Chat) (chatId : String)
    (id : String) (gen : GenOutcome)
    (hown : id = (found.getD ⟨chatId, id, []⟩).owner) :
    (∀ uses, 10 ≤ uses →
      (updateChat (some msg) found chatId ⟨id, uses⟩ gen).status = .quotaDenied ∧
      (updateChat (some msg) found chatId ⟨id, uses⟩ gen).finalUses = uses ∧
      Action.flushHeaders ∉ (updateChat (some msg) found chatId ⟨id, uses⟩ gen).trace ∧
      ∀ e, Action.writeEvent e ∉ (updateChat (some msg) found chatId ⟨id, uses⟩ gen).trace) ∧
    ((updateChat (some msg) found chatId ⟨id, 9⟩ gen).status = .streamOk ∨
      (updateChat (some msg) found chatId ⟨id, 9⟩ gen).status = .streamErrored) ∧
    (updateChat (some msg) found chatId ⟨id, 9⟩ gen).finalUses = 10 := by
  refine ⟨?_, ?_⟩
  · intro uses hu
    rw [updateChat_quota_eq msg found chatId ⟨id, uses⟩ gen hown hu]
    refine ⟨rfl, rfl, ?_, ?_⟩ <;> cases found <;> simp
  · cases gen with
    | success a s evs =>
        rw [updateChat_success_eq msg found chatId ⟨id, 9⟩ a s evs hown
          (by show (9:ℕ) < 10; decide)]
        exact ⟨Or.inl rfl, rfl⟩
    | failure pevs =>
        rw [updateChat_failure_eq msg found chatId ⟨id, 9⟩ pevs hown
          (by show (9:ℕ) < 10; decide)]
        exact ⟨Or.inr rfl, rfl⟩

/-- Witness for C4 at a concrete request. -/
theorem quota_boundary_witness :
    (updateChat (some "q") none "c" ⟨"u", 10⟩ (.success "a" [] [])).status
        = .quotaDenied ∧
    (updateChat (some "q") none "c" ⟨"u", 9⟩ (.success "a" [] [])).finalUses = 10 :=
  ⟨((quota_boundary "q" none "c" "u" (.success "a" [] []) rfl).1 10 (by decide)).1,
   (quota_boundary "q" none "c" "u" (.success "a" [] []) rfl).2.2⟩

/-- C8: under passing validation the whole action trace of `updateChat`
is, in order: (lazy chat creation,) header flush, usage save, the save
of the history extended with the user turn, the start of generation,
the stream events, and only then the save that appends the assistant
turn carrying the generated answer and the frozen source list; when
generation throws, no save containing an assistant turn for this
exchange ever happens. -/
theorem turn_persistence_ordering (msg : String) (found : Option Chat)
    (chatId : String) (reqUser : UserRec) (gen : GenOutcome)
    (hown : reqUser.id = (found.getD ⟨chatId, reqUser.id, []⟩).owner)
    (hq : reqUser.uses < 10) :
    (∀ a s evs, gen = .success a s evs →
      (updateChat (some msg) found chatId reqUser gen).trace =
        (if found.isNone then [Action.createChat] else [])
          ++ [.flushHeaders, .saveUser (reqUser.uses + 1),
              .saveChat ((found.getD ⟨chatId, reqUser.id, []⟩).chatHistory
                ++ [mkUserTurn msg]), .generate]
          ++ evs.map .writeEvent
          ++ [.saveChat ((found.getD ⟨chatId, reqUser.id, []⟩).chatHistory
                ++ [mkUserTurn msg, mkAiTurn a s]), .endResponse]) ∧
    (∀ pevs, gen = .failure pevs → ∀ h,
      Action.saveChat h ∈ (updateChat (some msg) found chatId reqUser gen).trace →
      h = (found.getD ⟨chatId, reqUser.id, []⟩).chatHistory ++ [mkUserTurn msg]) := by
  refine ⟨?_, ?_⟩
  · rintro a s evs rfl
    rw [updateChat_success_eq msg found chatId reqUser a s evs hown hq]
  · rintro pevs rfl h hm
    rw [updateChat_failure_eq msg found chatId reqUser pevs hown hq] at hm
    cases found <;> simp at hm <;> exact hm

/-- Witness for C8 at a concrete request. -/
theorem turn_persistence_ordering_witness :
    (updateChat (some "q") none "c" ⟨"u", 0⟩ (.success "a" [] [])).trace =
      [Action.createChat, .flushHeaders, .saveUser 1, .saveChat [mkUserTurn "q"],
       .generate, .saveChat [mkUserTurn "q", mkAiTurn "a" []], .endResponse] := by
  have h := (turn_persistence_ordering "q" none "c" ⟨"u", 0⟩ (.success "a" [] [])
    rfl (by decide)).1 "a" [] [] rfl
  simpa using h

/-- C10: under passing validation the usage counter is saved as exactly
`uses + 1`, the save precedes the start of generation, no other value
is ever saved for it, and the increment survives a generation failure
(`finalUses = uses + 1` in both outcomes). -/
theorem usage_increment_durable (msg : String) (found : Option Chat)
    (chatId : String) (reqUser : UserRec) (gen : GenOutcome)
    (hown : reqUser.id = (found.getD ⟨chatId, reqUser.id, []⟩).owner)
    (hq : reqUser.uses < 10) :
    (updateChat (some msg) found chatId reqUser gen).finalUses = reqUser.uses + 1 ∧
    (∀ n, Action.saveUser n ∈ (updateChat (some msg) found chatId reqUser gen).trace →
      n = reqUser.uses + 1) ∧
    ∃ pre post, (updateChat (some msg) found chatId reqUser gen).trace
        = pre ++ Action.generate :: post ∧
      Action.saveUser (reqUser.uses + 1) ∈ pre := by
  cases gen with
  | success a s evs =>
    rw [updateChat_success_eq msg found chatId reqUser a s evs hown hq]
    refine ⟨rfl, ?_, ?_⟩
    · intro n hn
      cases found <;> simp at hn <;> exact hn
    · refine ⟨(if found.isNone then [Action.createChat] else [])
        ++ [.flushHeaders, .saveUser (reqUser.uses + 1),
            .saveChat ((found.getD ⟨chatId, reqUser.id, []⟩).chatHistory
              ++ [mkUserTurn msg])],
        Action.writeEvent <$> evs
          ++ [.saveChat ((found.getD ⟨chatId, reqUser.id, []⟩).chatHistory
              ++ [mkUserTurn msg, mkAiTurn a s]), .endResponse], ?_, by simp⟩
      simp
  | failure pevs =>
    rw [updateChat_failure_eq msg found chatId reqUser pevs hown hq]
    refine ⟨rfl, ?_, ?_⟩
    · intro n hn
      cases found <;> simp at hn <;> exact hn
    · refine ⟨(if found.isNone then [Action.createChat] else [])
        ++ [.flushHeaders, .saveUser (reqUser.uses + 1),
            .saveChat ((found.getD ⟨chatId, reqUser.id, []⟩).chatHistory
              ++ [mkUserTurn msg])],
        Action.writeEvent <$> pevs
          ++ [.writeEvent (.errorEv "An error occurred."), .endResponse], ?_, by simp⟩
      simp

/-- Witness for C10 at a concrete request whose generation throws. -/
theorem usage_increment_durable_witness :
    (updateChat (some "q") none "c" ⟨"u", 3⟩ (.failure [])).finalUses = 4 :=
  (usage_increment_durable "q" none "c" ⟨"u", 3⟩ (.failure []) rfl (by decide)).1

/-- A key returned by the scan loop is in the pool, has fewer than 3
recorded failures, and the scan does not touch keys or failure counts. -/
lemma findWorkingKey_some (st : GroqState) (l : List Nat) (key : String)
    (st' : GroqState) (h : findWorkingKey st l = some (key, st')) :
    key ∈ st.keys ∧ lookupFailures st.failures key < 3 ∧
    st'.keys = st.keys ∧ st'.failures = st.failures := by
  induction l with
  | nil => simp [findWorkingKey] at h
  | cons i rest ih =>
    rw [findWorkingKey] at h
    split at h
    · exact absurd h (by simp)
    · next k hk =>
      split at h
      · next hl =>
        have h2 := Option.some.inj h
        have hk2 : key = k := (congrArg Prod.fst h2).symm
        subst hk2
        have hs2 : st' = ⟨st.keys,
            ((st.currentIndex + i) % st.keys.length + 1) % st.keys.length,
            st.failures⟩ := (congrArg Prod.snd h2).symm
        subst hs2
        exact ⟨List.getElem?_mem hk, hl, rfl, rfl⟩
      · exact ih h

/-- If the scan fails, every offset it visited pointed at a key with at
least 3 recorded failures. -/
lemma findWorkingKey_none (st : GroqState) (l : List Nat)
    (h : findWorkingKey st l = none) :
    ∀ i ∈ l, ∀ key, st.keys[(st.currentIndex + i) % st.keys.length]? = some key →
      3 ≤ lookupFailures st.failures key := by
  induction l with
  | nil => simp
  | cons i rest ih =>
    rw [findWorkingKey] at h
    intro j hj key hkey
    split at h
    · next hk =>
      rw [List.getElem?_eq_none_iff] at hk
      have hlen : st.keys.length = 0 := by
        rcases Nat.eq_zero_or_pos st.keys.length with h0 | hpos
        · exact h0
        · exact absurd hk (Nat.not_le.mpr (Nat.mod_lt _ hpos))
      rw [List.length_eq_zero] at hlen
      rw [hlen] at hkey
      simp at hkey
    · next k hk =>
      split at h
      · exact absurd h (by simp)
      · next hl =>
        rcases List.mem_cons.mp hj with rfl | hjr
        · rw [hk] at hkey
          obtain rfl := Option.some.inj hkey
          omega
        · exact ih h j hjr key hkey

/-- The cyclic scan `(currentIndex + i) % N`, `i < N`, covers every
index of the pool. -/
lemma cyclic_coverage (N cur j : Nat) (hN : 0 < N) (hj : j < N) :
    ∃ i, i ∈ List.range N ∧ (cur + i) % N = j := by
  refine ⟨(j + N - cur % N) % N, List.mem_range.mpr (Nat.mod_lt _ hN), ?_⟩
  have hc : cur % N < N := Nat.mod_lt _ hN
  rw [Nat.add_mod_mod]
  have hdm := Nat.div_add_mod cur N
  have h1 : cur + (j + N - cur % N) = j + (N * (cur / N) + N) := by omega
  rw [h1, ← Nat.mul_succ, Nat.add_mul_mod_self_left]
  exact Nat.mod_eq_of_lt hj

/-- C6: for every nonempty credential pool, `getNextGroqApiKey` returns
a key; the key has fewer than 3 recorded failures, unless every key in
the pool has 3 or more, in which case all failure counts are cleared
and the first key of the pool is returned. -/
theorem selectCredential_spec (st : GroqState) (h : st.keys ≠ []) :
    ∃ key st', getNextGroqApiKey st = some (key, st') ∧
      ((key ∈ st.keys ∧ lookupFailures st.failures key < 3) ∨
       ((∀ k ∈ st.keys, 3 ≤ lookupFailures st.failures k) ∧
        st.keys[0]? = some key ∧ st'.failures = [])) := by
  unfold getNextGroqApiKey
  cases hf : findWorkingKey st (List.range st.keys.length) with
  | some r =>
    obtain ⟨key, st'⟩ := r
    obtain ⟨hmem, hlt, -, -⟩ := findWorkingKey_some st _ key st' hf
    exact ⟨key, st', rfl, Or.inl ⟨hmem, hlt⟩⟩
  | none =>
    have hN : 0 < st.keys.length := List.length_pos.mpr h
    cases hk0 : st.keys[0]? with
    | none =>
      rw [List.getElem?_eq_none_iff] at hk0
      omega
    | some k0 =>
      refine ⟨k0, _, rfl, Or.inr ⟨?_, hk0 ▸ rfl, rfl⟩⟩
      intro k hkmem
      obtain ⟨j, hj, hjk⟩ := List.mem_iff_getElem.mp hkmem
      obtain ⟨i, hi, hmod⟩ := cyclic_coverage st.keys.length st.currentIndex j hN hj
      refine findWorkingKey_none st _ hf i hi k ?_
      rw [hmod, List.getElem?_eq_getElem hj, hjk]

/-- Witness for C6 at a concrete pool in which every key is over the
failure limit. -/
theorem selectCredential_spec_witness :
    ∃ key st',
      getNextGroqApiKey ⟨["a", "b"], 1, [("a", 3), ("b", 5)]⟩ = some (key, st') ∧
      ((key ∈ (⟨["a", "b"], 1, [("a", 3), ("b", 5)]⟩ : GroqState).keys ∧
        lookupFailures [("a", 3), ("b", 5)] key < 3) ∨
       ((∀ k ∈ (⟨["a", "b"], 1, [("a", 3), ("b", 5)]⟩ : GroqState).keys,
          3 ≤ lookupFailures [("a", 3), ("b", 5)] k) ∧
        (⟨["a", "b"], 1, [("a", 3), ("b", 5)]⟩ : GroqState).keys[0]? = some key ∧
        st'.failures = [])) :=
  selectCredential_spec ⟨["a", "b"], 1, [("a", 3), ("b", 5)]⟩ (by decide)

/-- `Map.set` keeps the invariant when one more entry is processed. -/
lemma mapInv_step (processed : List SourceEntry)
    (m : List (String × SourceEntry)) (x : SourceEntry)
    (h : MapInv processed m) :
    MapInv (processed ++ [x]) (jsMapSet m x.case_title x) := by
  obtain ⟨hnd, hkey, hlast⟩ := h
  by_cases hin : m.any (fun p => p.1 = x.case_title)
  · rw [MapInv, jsMapSet, if_pos hin]
    refine ⟨?_, ?_, ?_⟩
    · rw [List.map_map]
      have hsame : ∀ p ∈ m, ((fun p : String × SourceEntry => p.1) ∘
          (fun p => if p.1 = x.case_title then (x.case_title, x) else p)) p = p.1 := by
        intro p hp
        by_cases hpk : p.1 = x.case_title <;> simp [hpk]
      rw [List.map_congr_left hsame]
      exact hnd
    · intro p' hp'
      obtain ⟨p, hp, rfl⟩ := List.mem_map.mp hp'
      by_cases hpk : p.1 = x.case_title <;> simp [hpk]
      exact hkey p hp
    · intro p' hp'
      obtain ⟨p, hp, rfl⟩ := List.mem_map.mp hp'
      by_cases hpk : p.1 = x.case_title
      · rw [if_pos hpk]
        show (List.filter (fun y => decide (y.case_title = x.case_title))
          (processed ++ [x])).getLast? = some x
        have hx : List.filter (fun y => decide (y.case_title = x.case_title)) [x]
            = [x] := by simp
        rw [List.filter_append, hx, List.getLast?_concat]
      · rw [if_neg hpk]
        have hx : List.filter (fun y => decide (y.case_title = p.1)) [x] = [] := by
          have hne : ¬ (x.case_title = p.1) := fun hc => hpk hc.symm
          simp [hne]
        rw [List.filter_append, hx, List.append_nil]
        exact hlast p hp
  · have hnotin : ∀ p ∈ m, ¬ p.1 = x.case_title := by
      intro p hp hc
      exact hin (List.any_eq_true.mpr ⟨p, hp, by simp [hc]⟩)
    rw [MapInv, jsMapSet, if_neg hin]
    refine ⟨?_, ?_, ?_⟩
    · rw [List.map_append]
      refine List.nodup_append.mpr ⟨hnd, List.nodup_singleton _, ?_⟩
      intro a ha hb
      obtain ⟨p, hp, rfl⟩ := List.mem_map.mp ha
      simp at hb
      exact hnotin p hp hb
    · intro p' hp'
      rcases List.mem_append.mp hp' with hp | hp
      · exact hkey p' hp
      · simp at hp
        subst hp
        rfl
    · intro p' hp'
      rcases List.mem_append.mp hp' with hp | hp
      · have hx : List.filter (fun y => decide (y.case_title = p'.1)) [x] = [] := by
          have hne : ¬ (x.case_title = p'.1) := fun hc => hnotin p' hp hc.symm
          simp [hne]
        rw [List.filter_append, hx, List.append_nil]
        exact hlast p' hp
      · simp at hp
        subst hp
        have hx : List.filter (fun y => decide (y.case_title = x.case_title)) [x]
            = [x] := by simp
        rw [List.filter_append, hx, List.getLast?_concat]

/-- The invariant holds after folding any list of entries. -/
lemma mapInv_fold (l : List SourceEntry) :
    ∀ processed m, MapInv processed m →
      MapInv (processed ++ l)
        (l.foldl (fun m item => jsMapSet m item.case_title item) m) := by
  induction l with
  | nil => intro processed m h; simpa using h
  | cons x xs ih =>
    intro processed m h
    have h2 := mapInv_step processed m x h
    have h3 := ih (processed ++ [x]) _ h2
    simpa using h3

/-- The two facts `dedupByTitle` guarantees: titles are pairwise
distinct, and each surviving entry is the last input entry bearing its
title. -/
lemma dedupByTitle_spec (l : List SourceEntry) :
    ((dedupByTitle l).map (·.case_title)).Nodup ∧
    ∀ e ∈ dedupByTitle l,
      (l.filter (fun x => x.case_title = e.case_title)).getLast? = some e := by
  have h0 : MapInv [] [] := ⟨by simp, by simp, by simp⟩
  have h := mapInv_fold l [] [] h0
  rw [List.nil_append] at h
  obtain ⟨hnd, hkey, hlast⟩ := h
  constructor
  · rw [dedupByTitle, List.map_map]
    have hsame : ∀ p ∈ l.foldl (fun m item => jsMapSet m item.case_title item) [],
        ((fun e : SourceEntry => e.case_title) ∘ (fun p : String × SourceEntry => p.2)) p
          = p.1 := fun p hp => (hkey p hp).symm
    rw [List.map_congr_left hsame]
    exact hnd
  · intro e he
    rw [dedupByTitle] at he
    obtain ⟨p, hp, rfl⟩ := List.mem_map.mp he
    have hl := hlast p hp
    rw [hkey p hp] at hl
    exact hl

/-- C1 counterexample: two above-bar candidates share the title
"State v. A" with different urls (0.7/url-a first, 0.8/url-b second).
The code's `Map`-based deduplication keeps the second candidate's
entry, while first-seen-wins deduplication would keep the first — so
"the first occurrence of a title wins" is false for this retrieval
result set. -/
theorem dedup_last_wins_counterexample :
    assistantSources [docDupA, docDupB]
        = [⟨"State v. A", "url-b", scoreFourFifths⟩] ∧
    firstSeenDedupByTitle ((filterValid [docDupA, docDupB]).map mkSource)
        = [⟨"State v. A", "url-a", scoreSevenTenths⟩] ∧
    assistantSources [docDupA, docDupB]
        ≠ firstSeenDedupByTitle ((filterValid [docDupA, docDupB]).map mkSource) :=
  ⟨by decide, by decide, by decide⟩

/-- C1 (amended: last occurrence wins instead of first): every entry of
`assistantSources` scores at least the 0.6 bar, arises from a kept
retrieval candidate, no two entries share a title, and the surviving
entry for a title is the LAST kept candidate bearing that title. -/
theorem assistantSources_spec (results : List RetrievedDoc) :
    (∀ e ∈ assistantSources results, relevanceBar ≤ e.score) ∧
    (∀ e ∈ assistantSources results,
      ∃ d ∈ results, relevanceBar ≤ d.score ∧ e = mkSource d) ∧
    ((assistantSources results).map (·.case_title)).Nodup ∧
    (∀ e ∈ assistantSources results,
      (((filterValid results).map mkSource).filter
        (fun x => x.case_title = e.case_title)).getLast? = some e) := by
  have hmem : ∀ e ∈ assistantSources results,
      ∃ d ∈ results, relevanceBar ≤ d.score ∧ e = mkSource d := by
    intro e he
    rw [assistantSources] at he
    split at he
    · obtain ⟨-, hlast⟩ := dedupByTitle_spec ((filterValid results).map mkSource)
      have hmem2 : e ∈ (filterValid results).map mkSource :=
        (List.mem_filter.mp (List.mem_of_getLast?_eq_some (hlast e he))).1
      obtain ⟨d, hd, rfl⟩ := List.mem_map.mp hmem2
      obtain ⟨hdr, hdk⟩ := List.mem_filter.mp hd
      exact ⟨d, hdr, by simpa [streamKeep] using hdk, rfl⟩
    · simp at he
  refine ⟨?_, hmem, ?_, ?_⟩
  · intro e he
    obtain ⟨d, -, hds, rfl⟩ := hmem e he
    exact hds
  · rw [assistantSources]
    split
    · exact (dedupByTitle_spec ((filterValid results).map mkSource)).1
    · simp
  · intro e he
    rw [assistantSources] at he
    split at he
    · exact (dedupByTitle_spec ((filterValid results).map mkSource)).2 e he
    · simp at he

/-- Witness for the amended C1 at a concrete retrieval result set. -/
theorem assistantSources_spec_witness :
    relevanceBar ≤ (⟨"State v. A", "url-b", scoreFourFifths⟩ : SourceEntry).score :=
  (assistantSources_spec [docDupA, docDupB]).1
    ⟨"State v. A", "url-b", scoreFourFifths⟩ (by decide)

/-- C2 counterexample: the summarize recommendation filter keeps 0.2
and 0.6 but drops 0.4, so within this single filtering decision the
keep predicate is monotone in neither direction — both threshold
directions are mixed, falsifying "the two directions are never mixed
within one filtering decision". -/
theorem summarize_filter_mixes_directions :
    summarizeKeep scoreFifth = true ∧ summarizeKeep scoreTwoFifths = false ∧
    summarizeKeep scoreThreeFifths = true ∧
    ¬ ((∀ x y : ℚ, x ≤ y → summarizeKeep x = true → summarizeKeep y = true) ∨
       (∀ x y : ℚ, y ≤ x → summarizeKeep x = true → summarizeKeep y = true)) := by
  refine ⟨by decide, by decide, by decide, ?_⟩
  rintro (hup | hdown)
  · exact absurd (hup scoreFifth scoreTwoFifths (by decide) (by decide)) (by decide)
  · exact absurd (hdown scoreThreeFifths scoreTwoFifths (by decide) (by decide))
      (by decide)

/-- C2 (amended: the assistant-stream filter is a single
higher-is-better threshold, but the summarize recommendation filter
keeps a score iff it is below 0.35 or at least 0.5, mixing the two
directions): exact characterisations of both keep predicates, and
upward closure of the streaming one. -/
theorem threshold_direction_semantics :
    (∀ s : ℚ, streamKeep s = true ↔ relevanceBar ≤ s) ∧
    (∀ x y : ℚ, x ≤ y → streamKeep x = true → streamKeep y = true) ∧
    (∀ s : ℚ, summarizeKeep s = true ↔
      (s < summarizeLowCut ∨ summarizeHighCut ≤ s)) := by
  refine ⟨fun s => by simp [streamKeep], ?_, fun s => by simp [summarizeKeep]⟩
  intro x y hxy hx
  simp only [streamKeep, decide_eq_true_eq] at hx ⊢
  exact le_trans hx hxy

/-- Witness for the amended C2 at concrete scores. -/
theorem threshold_direction_semantics_witness :
    streamKeep scoreSevenTenths = true ∧ summarizeKeep scoreFifth = true :=
  ⟨(threshold_direction_semantics.1 scoreSevenTenths).mpr (by decide),
   (threshold_direction_semantics.2.2 scoreFifth).mpr (Or.inl (by decide))⟩

/-- `getNextGroqApiKey` only fails on an empty pool. -/
lemma getNext_none (st : GroqState) (h : getNextGroqApiKey st = none) :
    st.keys = [] := by
  unfold getNextGroqApiKey at h
  cases hf : findWorkingKey st (List.range st.keys.length) with
  | some r => rw [hf] at h; exact absurd h (by simp)
  | none =>
    rw [hf] at h
    cases hk0 : st.keys[0]? with
    | some k0 => rw [hk0] at h; exact absurd h (by simp)
    | none =>
      rw [List.getElem?_eq_none_iff] at hk0
      exact List.length_eq_zero.mp (by omega)

/-- Selection never changes the pool itself. -/
lemma getNext_keys (st : GroqState) (key : String) (st' : GroqState)
    (h : getNextGroqApiKey st = some (key, st')) : st'.keys = st.keys := by
  unfold getNextGroqApiKey at h
  cases hf : findWorkingKey st (List.range st.keys.length) with
  | some r =>
    obtain ⟨k2, st2⟩ := r
    rw [hf] at h
    have h2 := Option.some.inj h
    have hs : st' = st2 := (congrArg Prod.snd h2).symm
    subst hs
    exact (findWorkingKey_some st _ k2 st' hf).2.2.1
  | none =>
    rw [hf] at h
    cases hk0 : st.keys[0]? with
    | none => rw [hk0] at h; exact absurd h (by simp)
    | some k0 =>
      rw [hk0] at h
      have h2 := Option.some.inj h
      have hs : st' = ⟨st.keys, 0, []⟩ := (congrArg Prod.snd h2).symm
      subst hs
      rfl

/-- Invariant proof for the Groq rotation loop, by induction on the
remaining fuel. -/
lemma groqLoop_spec (env : FallbackEnv) (fuel : Nat) :
    ∀ (st : GroqState) (lastError : Option String)
      (attempted reported : List String),
      st.keys ≠ [] →
      reported = attempted →
      (∀ i, i < attempted.length → ∃ e, env.groq i = .err true e) →
      ((attempted = [] ∧ lastError = none) ∨
        (attempted ≠ [] ∧ ∃ isR e,
          env.groq (attempted.length - 1) = .err isR e ∧ lastError = some e)) →
      LoopConcl env.groq (attempted.length + fuel)
        (groqLoop env fuel st attempted.length lastError attempted reported) := by
  induction fuel with
  | zero =>
    intro st lastError attempted reported hkeys hRep hPrev hLast
    rw [groqLoop, LoopConcl]
    refine ⟨Nat.le_refl _, hRep, fun i hi => hPrev i (by omega), hLast,
      fun hlt => absurd hlt (by omega)⟩
  | succ fuel ih =>
    intro st lastError attempted reported hkeys hRep hPrev hLast
    rw [groqLoop]
    cases hg : getNextGroqApiKey st with
    | none => exact absurd (getNext_none st hg) hkeys
    | some r =>
      obtain ⟨key, st'⟩ := r
      cases hc : env.groq attempted.length with
      | ok t =>
        rw [LoopConcl]
        refine ⟨by simp, ⟨key, by rw [hRep]⟩, ?_, ?_⟩
        · simpa using hc
        · intro i hi
          simp at hi
          exact hPrev i (by omega)
      | err isRate e =>
        cases isRate with
        | true =>
          show LoopConcl env.groq (attempted.length + (fuel + 1))
            (groqLoop env fuel (markGroqKeyFailed st' key) (attempted.length + 1)
              (some e) (attempted ++ [key]) (reported ++ [key]))
          have hkeys2 : (markGroqKeyFailed st' key).keys ≠ [] := by
            show st'.keys ≠ []
            rw [getNext_keys st key st' hg]
            exact hkeys
          have hPrev2 : ∀ i, i < (attempted ++ [key]).length →
              ∃ e2, env.groq i = .err true e2 := by
            intro i hi
            simp at hi
            rcases Nat.lt_or_ge i attempted.length with hlt | hge
            · exact hPrev i hlt
            · have : i = attempted.length := by omega
              exact ⟨e, this ▸ hc⟩
          have hLast2 : ((attempted ++ [key]) = [] ∧ (some e : Option String) = none) ∨
              ((attempted ++ [key]) ≠ [] ∧ ∃ isR e2,
                env.groq ((attempted ++ [key]).length - 1) = .err isR e2 ∧
                (some e : Option String) = some e2) := by
            refine Or.inr ⟨by simp, true, e, ?_, rfl⟩
            simpa using hc
          have h2 := ih (markGroqKeyFailed st' key) (some e) (attempted ++ [key])
            (reported ++ [key]) hkeys2 (by rw [hRep]) hPrev2 hLast2
          have hlen : (attempted ++ [key]).length = attempted.length + 1 := by simp
          rw [hlen] at h2
          have hbnd : attempted.length + 1 + fuel = attempted.length + (fuel + 1) := by
            omega
          rw [hbnd] at h2
          exact h2
        | false =>
          show LoopConcl env.groq (attempted.length + (fuel + 1))
            (.exhausted (some e) (markGroqKeyFailed st' key) (attempted ++ [key])
              (reported ++ [key]))
          rw [LoopConcl]
          refine ⟨by simp, by rw [hRep], ?_, ?_, ?_⟩
          · intro i hi
            simp at hi
            exact hPrev i (by omega)
          · refine Or.inr ⟨by simp, false, e, ?_, rfl⟩
            simpa using hc
          · intro _
            exact ⟨e, by simpa using hc⟩

/-- The tail of the fallback keeps the loop guarantees and propagates
the recorded last error (or the generic message) when everything has
failed. -/
lemma afterGroq_spec (env : FallbackEnv) (preferOpenAI : Bool)
    (r : GroqLoopResult) (bound : Nat) (h : LoopConcl env.groq bound r) :
    (afterGroq env preferOpenAI r).groqAttempts.length ≤ bound ∧
    ((afterGroq env preferOpenAI r).groqAttempts
        = (afterGroq env preferOpenAI r).reportedFailures ∨
      ∃ k, (afterGroq env preferOpenAI r).groqAttempts
        = (afterGroq env preferOpenAI r).reportedFailures ++ [k]) ∧
    (∀ i, i + 1 < (afterGroq env preferOpenAI r).groqAttempts.length →
      ∃ e, env.groq i = .err true e) ∧
    (∀ e, (afterGroq env preferOpenAI r).result = .error e →
      (afterGroq env preferOpenAI r).reportedFailures
          = (afterGroq env preferOpenAI r).groqAttempts ∧
      (((afterGroq env preferOpenAI r).groqAttempts ≠ [] ∧ ∃ isR,
          env.groq ((afterGroq env preferOpenAI r).groqAttempts.length - 1)
            = .err isR e) ∨
        ((afterGroq env preferOpenAI r).groqAttempts = [] ∧
          e = "All LLM providers failed")) ∧
      ((afterGroq env preferOpenAI r).groqAttempts.length = bound ∨
        ∃ e2, env.groq ((afterGroq env preferOpenAI r).groqAttempts.length - 1)
          = .err false e2)) := by
  cases r with
  | success t st2 att rep =>
    obtain ⟨h1, h2, h3, h4⟩ := h
    exact ⟨h1, Or.inr h2, h4, fun e he => absurd he (by simp [afterGroq])⟩
  | exhausted lastErr st2 att rep =>
    obtain ⟨h1, h2, h3, h4, h5⟩ := h
    have herr : ∀ e, (Except.error (lastErr.getD "All LLM providers failed")
          : Except String String) = .error e →
        rep = att ∧
        ((att ≠ [] ∧ ∃ isR, env.groq (att.length - 1) = .err isR e) ∨
          (att = [] ∧ e = "All LLM providers failed")) ∧
        (att.length = bound ∨
          ∃ e2, env.groq (att.length - 1) = .err false e2) := by
      intro e he
      have he2 : lastErr.getD "All LLM providers failed" = e := by
        exact (Except.error.inj he)
      refine ⟨h2, ?_, ?_⟩
      · rcases h4 with ⟨hnil, hnone⟩ | ⟨hne, isR, e3, hc, hsome⟩
        · subst hnil
          rw [hnone] at he2
          exact Or.inr ⟨rfl, he2.symm⟩
        · rw [hsome] at he2
          simp at he2
          subst he2
          exact Or.inl ⟨hne, isR, hc⟩
      · rcases Nat.lt_or_ge att.length bound with hlt | hge
        · exact Or.inr (h5 hlt)
        · exact Or.inl (by omega)
    rw [afterGroq]
    split
    · cases hfb : env.openAIFallback with
      | ok t => exact ⟨h1, Or.inl h2.symm, h3, fun e he => absurd he (by simp)⟩
      | err isR e2 => exact ⟨h1, Or.inl h2.symm, h3, herr⟩
    · exact ⟨h1, Or.inl h2.symm, h3, herr⟩

/-- C5 counterexample: pool `["k0", "k1"]` with `k0` in cooldown (3
recorded failures) and every Groq call rate-limited. The two loop
iterations both select `k1`, so the available credential `k1` is tried
twice — "tried at most once per available credential" fails (the loop
is bounded by pool size, not by distinct credentials). -/
theorem fallback_retries_same_credential :
    (invokeLLMWithFallback rateLimitEnv false cooldownState).groqAttempts
        = ["k1", "k1"] ∧
    ¬ (invokeLLMWithFallback rateLimitEnv false cooldownState).groqAttempts.Nodup ∧
    (invokeLLMWithFallback rateLimitEnv false cooldownState).result
        = .error "rate limited" :=
  ⟨by decide, by decide, rfl⟩

/-- C5 (amended: the primary backend is tried at most pool-size times
in total — a single credential can be retried when others are in
cooldown): every failed attempt is reported to the rotator, every
non-final attempt failed rate-limited (a non-rate failure aborts the
loop), and when the whole call fails the propagated error is the error
of the final primary attempt (or the generic "All LLM providers
failed" when the primary was never attempted), never a silent empty
response — even when the secondary fallback failed after it. -/
theorem invokeLLMWithFallback_spec (env : FallbackEnv) (preferOpenAI : Bool)
    (st : GroqState) :
    (invokeLLMWithFallback env preferOpenAI st).groqAttempts.length
        ≤ st.keys.length ∧
    ((invokeLLMWithFallback env preferOpenAI st).groqAttempts
        = (invokeLLMWithFallback env preferOpenAI st).reportedFailures ∨
      ∃ k, (invokeLLMWithFallback env preferOpenAI st).groqAttempts
        = (invokeLLMWithFallback env preferOpenAI st).reportedFailures ++ [k]) ∧
    (∀ i, i + 1 < (invokeLLMWithFallback env preferOpenAI st).groqAttempts.length →
      ∃ e, env.groq i = .err true e) ∧
    (∀ e, (invokeLLMWithFallback env preferOpenAI st).result = .error e →
      (invokeLLMWithFallback env preferOpenAI st).reportedFailures
          = (invokeLLMWithFallback env preferOpenAI st).groqAttempts ∧
      (((invokeLLMWithFallback env preferOpenAI st).groqAttempts ≠ [] ∧ ∃ isR,
          env.groq
            ((invokeLLMWithFallback env preferOpenAI st).groqAttempts.length - 1)
            = .err isR e) ∨
        ((invokeLLMWithFallback env preferOpenAI st).groqAttempts = [] ∧
          e = "All LLM providers failed")) ∧
      ((invokeLLMWithFallback env preferOpenAI st).groqAttempts.length
          = st.keys.length ∨
        ∃ e2, env.groq
          ((invokeLLMWithFallback env preferOpenAI st).groqAttempts.length - 1)
          = .err false e2)) := by
  have hconcl : LoopConcl env.groq st.keys.length
      (groqLoop env st.keys.length st 0 none [] []) := by
    by_cases hk : st.keys = []
    · have h0 : st.keys.length = 0 := by rw [hk]; rfl
      rw [h0, groqLoop, LoopConcl]
      exact ⟨Nat.le_refl _, rfl, fun i hi => absurd hi (by simp),
        Or.inl ⟨rfl, rfl⟩, fun h => absurd h (by omega)⟩
    · have h := groqLoop_spec env st.keys.length st none [] [] hk rfl
        (fun i hi => absurd hi (by simp)) (Or.inl ⟨rfl, rfl⟩)
      simpa using h
  have hmain := afterGroq_spec env preferOpenAI
    (groqLoop env st.keys.length st 0 none [] []) st.keys.length hconcl
  rw [invokeLLMWithFallback]
  split
  · cases hf : env.openAIFirst with
    | ok t =>
      exact ⟨by simp, Or.inl rfl, fun i hi => absurd hi (by simp),
        fun e he => absurd he (by simp)⟩
    | err isR e0 => exact hmain
  · exact hmain

/-- Witness for the amended C5 at the concrete rate-limited pool,
discharging the error-propagation hypothesis. -/
theorem invokeLLMWithFallback_spec_witness :
    (invokeLLMWithFallback rateLimitEnv false cooldownState).reportedFailures
      = (invokeLLMWithFallback rateLimitEnv false cooldownState).groqAttempts :=
  ((invokeLLMWithFallback_spec rateLimitEnv false cooldownState).2.2.2
    "rate limited" rfl).1

end LawVista
